import Mathlib

/-!
Verification of the PlantUML tool's core processing-result model.

Shallow embedding of the Rust sources:
* `src/core/src/models.rs`      — `StatusLevel`, `ErrorCode`, `ProcessResult`, `StorageSlot`
* `src/core/src/validation.rs`  — `validate_plantuml_content`
* `src/core/src/client.rs`      — `PlantUmlClient::convert`
* `src/api-server/src/handlers.rs` — error-code classification in `convert`
* `src/web-ui/src/model/storage.rs` / `src/storageservice/src/local.rs`
                                  — `save_to_slot`, `load_from_slot`, `list_slots`,
                                    `delete_slot`, `get_preview`

Rust strings (`&str`/`String`) are embedded as `List Char` wherever byte
lengths or character boundaries matter (with an explicit UTF-8 byte-size
function), and as Lean `String` where the code only compares or
concatenates whole strings.  `usize`/`u64`/`u8` become `Nat`; `u8` casts
(`as u8`) are `% 256`.
-/

namespace PlantUml

/-- Status level for messages, from `src/core/src/models.rs` (`StatusLevel`). -/
inductive StatusLevel where
  | Info
  | Warning
  | Error
deriving DecidableEq

/-- Error codes for processing results, from `src/core/src/models.rs`
(`ErrorCode`).  Field types: `u8`/`usize`/`u64` become `Nat`,
`String` stays `String`, `Option<usize>` becomes `Option Nat`. -/
inductive ErrorCode where
  | ConversionOk
  | ExportOk
  | SaveSuccess (slot_number : Nat)
  | LoadSuccess (slot_number : Nat)
  | DeleteSuccess (slot_number : Nat)
  | ValidationEmpty
  | ValidationTextLimit (actual : Nat) (max : Nat)
  | StorageInputLimit (actual : Nat) (max : Nat)
  | StorageSlotLimit (max_slots : Nat)
  | StorageWriteError (reason : String)
  | StorageReadError (reason : String)
  | StorageDeleteError (reason : String)
  | SizeLimit (actual_bytes : Nat) (max_bytes : Nat)
  | EncodingError (encoding : String)
  | ParseError (line : Option Nat)
  | ExportError (format : String)
  | ServerError (message : String)
  | TimeoutError (duration_ms : Nat)
  | NetworkError (endpoint : String)
deriving DecidableEq

/-- `ErrorCode::status_level` from `src/core/src/models.rs` lines 242-261:
the match groups the five success variants as `Info`, then
`ValidationEmpty | ValidationTextLimit | StorageInputLimit |
StorageSlotLimit | SizeLimit` as `Warning`, and everything else
(the catch-all `_` arm) as `Error`. -/
def ErrorCode.status_level : ErrorCode → StatusLevel
  | .ConversionOk
  | .ExportOk
  | .SaveSuccess _
  | .LoadSuccess _
  | .DeleteSuccess _ => .Info
  | .ValidationEmpty
  | .ValidationTextLimit _ _
  | .StorageInputLimit _ _
  | .StorageSlotLimit _
  | .SizeLimit _ _ => .Warning
  | _ => .Error

/-- Discriminant of an `ErrorCode` value: two values are of the same Rust
enum variant exactly when their tags agree (declaration order of
`models.rs`). -/
def ErrorCode.variantTag : ErrorCode → Nat
  | .ConversionOk => 0
  | .ExportOk => 1
  | .SaveSuccess _ => 2
  | .LoadSuccess _ => 3
  | .DeleteSuccess _ => 4
  | .ValidationEmpty => 5
  | .ValidationTextLimit _ _ => 6
  | .StorageInputLimit _ _ => 7
  | .StorageSlotLimit _ => 8
  | .StorageWriteError _ => 9
  | .StorageReadError _ => 10
  | .StorageDeleteError _ => 11
  | .SizeLimit _ _ => 12
  | .EncodingError _ => 13
  | .ParseError _ => 14
  | .ExportError _ => 15
  | .ServerError _ => 16
  | .TimeoutError _ => 17
  | .NetworkError _ => 18

/-- Severity as a function of the discriminant alone (tags 0-4 are the
`Info` arm, 5-8 and 12 the `Warning` arm, the rest the catch-all
`Error` arm of `status_level`). -/
def levelOfTag (t : Nat) : StatusLevel :=
  if t ≤ 4 then .Info
  else if t ≤ 8 ∨ t = 12 then .Warning
  else .Error

/-- `status_level` factors through the discriminant. -/
theorem status_level_eq_levelOfTag (c : ErrorCode) :
    c.status_level = levelOfTag c.variantTag := by
  cases c <;> rfl

/-- `ProcessResult` from `src/core/src/models.rs` lines 264-272. -/
structure ProcessResult where
  level : StatusLevel
  code : ErrorCode
deriving DecidableEq

/-- `ProcessResult::new` from `src/core/src/models.rs` lines 274-279:
the level is always derived from `code.status_level()`. -/
def ProcessResult.new (code : ErrorCode) : ProcessResult :=
  { level := code.status_level, code := code }

/-- C1. Severity purity: `status_level` depends only on the variant — any
two `ErrorCode` values with the same discriminant get the same
`StatusLevel` — and `ProcessResult::new` always derives its `level` from
`code.status_level()`, never from a caller-supplied severity. -/
theorem C1_severity_purity :
    (∀ c₁ c₂ : ErrorCode, c₁.variantTag = c₂.variantTag →
      c₁.status_level = c₂.status_level) ∧
    (∀ code : ErrorCode, (ProcessResult.new code).level = code.status_level) := by
  constructor
  · intro c₁ c₂ h
    rw [status_level_eq_levelOfTag, status_level_eq_levelOfTag, h]
  · intro code
    rfl

/-- Witness for C1 at concrete inputs: two `SaveSuccess` values with
different fields share a severity, and `ProcessResult::new` on
`ValidationEmpty` stores the derived level. -/
theorem C1_severity_purity_witness :
    (ErrorCode.SaveSuccess 1).status_level = (ErrorCode.SaveSuccess 9).status_level :=
  C1_severity_purity.1 (.SaveSuccess 1) (.SaveSuccess 9) (by decide)

/-- C2 counterexample: the code maps `SizeLimit` (spec name
`OutputTooLarge`) to `Warning`, not `Error` — `status_level` lists
`SizeLimit { .. }` in its `Warning` arm (models.rs line 256), and the
repository's own test `test_error_code_status_level_warning`
(models_test.rs line 305) asserts exactly that. -/
theorem C2_processing_severity_counterexample :
    (ErrorCode.SizeLimit 1 2).status_level = StatusLevel.Warning ∧
    (ErrorCode.SizeLimit 1 2).status_level ≠ StatusLevel.Error := by
  decide

/-- C2 amended: of the Processing-family variants, `EncodingFailed`
(`EncodingError{encoding}`) and `RenderParseFailed` (`ParseError{line}`)
have severity `Error` for every field content, but `OutputTooLarge`
(`SizeLimit{actual_bytes, max_bytes}`) has severity `Warning` for every
field content. -/
theorem C2_processing_severity_amended :
    (∀ a m : Nat, (ErrorCode.SizeLimit a m).status_level = StatusLevel.Warning) ∧
    (∀ s : String, (ErrorCode.EncodingError s).status_level = StatusLevel.Error) ∧
    (∀ l : Option Nat, (ErrorCode.ParseError l).status_level = StatusLevel.Error) :=
  ⟨fun _ _ => rfl, fun _ => rfl, fun _ => rfl⟩

/-! ## Validator (`src/core/src/validation.rs`)

Rust `&str` is embedded as `List Char`; `str::len` is the UTF-8 byte
length, `str::trim` drops Unicode-whitespace characters from both ends. -/

/-- UTF-8 byte size of one scalar value (Rust `char::len_utf8`). -/
def utf8Len (c : Char) : Nat :=
  if c.toNat < 0x80 then 1
  else if c.toNat < 0x800 then 2
  else if c.toNat < 0x10000 then 3
  else 4

/-- Rust `str::len` on the embedded string: total UTF-8 byte length. -/
def byteLen (s : List Char) : Nat := (s.map utf8Len).sum

/-- Rust `char::is_whitespace`: the Unicode `White_Space` property. -/
def isRustWhitespace (c : Char) : Bool :=
  let n := c.toNat
  n == 0x09 || n == 0x0A || n == 0x0B || n == 0x0C || n == 0x0D || n == 0x20 ||
  n == 0x85 || n == 0xA0 || n == 0x1680 ||
  (0x2000 ≤ n && n ≤ 0x200A) ||
  n == 0x2028 || n == 0x2029 || n == 0x202F || n == 0x205F || n == 0x3000

/-- Rust `str::trim`: drop whitespace from the front and the back. -/
def rustTrim (s : List Char) : List Char :=
  ((s.dropWhile isRustWhitespace).reverse.dropWhile isRustWhitespace).reverse

theorem utf8Len_pos (c : Char) : 1 ≤ utf8Len c := by
  unfold utf8Len
  split <;> [skip; split <;> [skip; split]] <;> omega

/-- The trimmed string is empty exactly when every character is whitespace. -/
theorem rustTrim_isEmpty_iff (s : List Char) :
    (rustTrim s).isEmpty = true ↔ ∀ c ∈ s, isRustWhitespace c = true := by
  unfold rustTrim
  rw [List.isEmpty_iff, List.reverse_eq_nil_iff, List.dropWhile_eq_nil_iff]
  constructor
  · intro h c hc
    have hs := List.takeWhile_append_dropWhile (p := isRustWhitespace) (l := s)
    rw [← hs] at hc
    rcases List.mem_append.mp hc with h₁ | h₂
    · exact List.mem_takeWhile_imp h₁
    · exact h c (List.mem_reverse.mpr h₂)
  · intro h c hc
    exact h c ((List.dropWhile_suffix isRustWhitespace).sublist.subset
      (List.mem_reverse.mp hc))

theorem byteLen_replicate (n : Nat) (c : Char) :
    byteLen (List.replicate n c) = n * utf8Len c := by
  unfold byteLen
  rw [List.map_replicate, List.sum_replicate, smul_eq_mul]

/-- `ValidationError` from `src/core/src/validation.rs` lines 6-13. -/
inductive ValidationError where
  | EmptyContent
  | ContentTooLarge (actual : Nat) (max : Nat)
deriving DecidableEq

/-- `ValidationError::to_error_code` (validation.rs lines 17-25):
`EmptyContent` is the spec's `EmptyInput` (`ValidationEmpty`),
`ContentTooLarge` the spec's `InputTooLong` (`ValidationTextLimit`). -/
def ValidationError.to_error_code : ValidationError → ErrorCode
  | .EmptyContent => .ValidationEmpty
  | .ContentTooLarge actual max => .ValidationTextLimit actual max

/-- `ValidationError::status_level` (validation.rs lines 28-30). -/
def ValidationError.status_level (_ : ValidationError) : StatusLevel := .Warning

/-- `MAX_CHARS` from `src/core/src/validation.rs` line 48. -/
def MAX_CHARS : Nat := 24000

/-- `validate_plantuml_content` from `src/core/src/validation.rs` lines
41-54: first the emptiness check on the trimmed content, then the
byte-length bound `content.len() > MAX_CHARS`. -/
def validate_plantuml_content (content : List Char) : Except ValidationError Unit :=
  if (rustTrim content).isEmpty then .error .EmptyContent
  else if byteLen content > MAX_CHARS then
    .error (.ContentTooLarge (byteLen content) MAX_CHARS)
  else .ok ()

theorem validate_rule_empty (content : List Char)
    (h : (rustTrim content).isEmpty = true) :
    validate_plantuml_content content = .error .EmptyContent := by
  simp [validate_plantuml_content, h]

theorem validate_rule_toolong (content : List Char)
    (h : (rustTrim content).isEmpty = false) (hlen : byteLen content > MAX_CHARS) :
    validate_plantuml_content content =
      .error (.ContentTooLarge (byteLen content) MAX_CHARS) := by
  simp [validate_plantuml_content, h, hlen]

theorem validate_rule_ok (content : List Char)
    (h : (rustTrim content).isEmpty = false) (hlen : byteLen content ≤ MAX_CHARS) :
    validate_plantuml_content content = .ok () := by
  simp [validate_plantuml_content, h, Nat.not_lt.mpr hlen]

/-- A non-empty replicate of a non-whitespace character does not trim to
the empty string. -/
theorem rustTrim_replicate_ne (n : Nat) (c : Char)
    (hc : isRustWhitespace c = false) :
    (rustTrim (List.replicate (n + 1) c)).isEmpty = false := by
  rw [Bool.eq_false_iff]
  intro hempty
  have := (rustTrim_isEmpty_iff _).mp hempty c
    (List.mem_replicate.mpr ⟨Nat.succ_ne_zero n, rfl⟩)
  rw [this] at hc
  exact Bool.true_eq_false.mp hc

/-- C3. The validator applies its two rules in order, deterministically:
a string whose trimmed form is empty yields `EmptyContent` (the spec's
`EmptyInput`) unconditionally — even when the untrimmed length exceeds the
limit; otherwise a string longer than 24000 bytes yields
`ContentTooLarge (len content) 24000` (the spec's `InputTooLong`);
otherwise it succeeds.  Concretely: `""` and `"   "` are empty, 24001
copies of `'x'` give `ContentTooLarge 24001 24000`, and 24000 copies
succeed. -/
theorem C3_validator_rules :
    (∀ content : List Char, (rustTrim content).isEmpty = true →
      validate_plantuml_content content = .error .EmptyContent) ∧
    (∀ content : List Char, (rustTrim content).isEmpty = false →
      byteLen content > MAX_CHARS →
      validate_plantuml_content content =
        .error (.ContentTooLarge (byteLen content) MAX_CHARS)) ∧
    (∀ content : List Char, (rustTrim content).isEmpty = false →
      byteLen content ≤ MAX_CHARS →
      validate_plantuml_content content = .ok ()) ∧
    validate_plantuml_content [] = .error .EmptyContent ∧
    validate_plantuml_content (List.replicate 3 ' ') = .error .EmptyContent ∧
    validate_plantuml_content (List.replicate 24001 'x') =
      .error (.ContentTooLarge 24001 24000) ∧
    validate_plantuml_content (List.replicate 24000 'x') = .ok () := by
  have hx_byte : ∀ n : Nat, byteLen (List.replicate n 'x') = n := by
    intro n
    rw [byteLen_replicate, show utf8Len 'x' = 1 by decide, Nat.mul_one]
  refine ⟨validate_rule_empty, validate_rule_toolong, validate_rule_ok,
    validate_rule_empty [] rfl, ?_, ?_, ?_⟩
  · apply validate_rule_empty
    rw [rustTrim_isEmpty_iff]
    intro c hc
    rw [List.eq_of_mem_replicate hc]
    decide
  · have h := validate_rule_toolong (List.replicate 24001 'x')
      (rustTrim_replicate_ne 24000 'x' (by decide)) (by rw [hx_byte]; decide)
    rwa [hx_byte] at h
  · exact validate_rule_ok (List.replicate 24000 'x')
      (rustTrim_replicate_ne 23999 'x' (by decide)) (by rw [hx_byte]; decide)

/-- Witness for C3 at a concrete input: the first rule applied to `" "`. -/
theorem C3_validator_rules_witness :
    validate_plantuml_content [' '] = .error .EmptyContent :=
  C3_validator_rules.1 [' '] (by decide)

/-- C9 (implicit). The validator measures length in UTF-8 bytes, not
characters: success holds exactly when the trimmed content is non-empty
and `byteLen content ≤ 24000`; and 8001 copies of `'あ'` (U+3042, three
UTF-8 bytes each) — only 8001 characters, far below 24000 — are rejected
with `ContentTooLarge 24003 24000`. -/
theorem C9_byte_length_semantics :
    (∀ content : List Char, validate_plantuml_content content = .ok () ↔
      ((rustTrim content).isEmpty = false ∧ byteLen content ≤ 24000)) ∧
    validate_plantuml_content (List.replicate 8001 (Char.ofNat 0x3042)) =
      .error (.ContentTooLarge 24003 24000) ∧
    (List.replicate 8001 (Char.ofNat 0x3042)).length = 8001 := by
  refine ⟨?_, ?_, by rw [List.length_replicate]⟩
  · intro content
    unfold validate_plantuml_content MAX_CHARS
    by_cases h : (rustTrim content).isEmpty = true
    · simp [h]
    · have h' := (Bool.not_eq_true _).mp h
      by_cases h2 : byteLen content > 24000
      · simp [h', h2, Nat.not_le.mpr h2]
      · simp [h', h2, Nat.not_lt.mp h2]
  · have hbyte : byteLen (List.replicate 8001 (Char.ofNat 0x3042)) = 24003 := by
      rw [byteLen_replicate, show utf8Len (Char.ofNat 0x3042) = 3 by decide]
    have h := validate_rule_toolong (List.replicate 8001 (Char.ofNat 0x3042))
      (rustTrim_replicate_ne 8000 (Char.ofNat 0x3042) (by decide))
      (by rw [hbyte]; decide)
    rwa [hbyte] at h

/-! ## Slot store (`src/core/src/models.rs` `StorageSlot`,
`src/web-ui/src/model/storage.rs` / `src/storageservice/src/local.rs`
`StorageService`)

The browser `LocalStorage` backend is embedded as a partial map from
string keys to stored values.  A stored value either deserializes as a
`StorageSlot` record (`slotRecord`) or does not (`malformed`), matching
the two ways `gloo_storage::LocalStorage::get::<StorageSlot>` can behave
on a present key.  `uuid::Uuid::new_v4()` and `chrono::Utc::now()` are
environment inputs, passed as parameters. -/

/-- `PlantUMLDocument` from `src/core/src/models.rs` lines 23-39
(the UUID abstracted as `Nat`, content as `List Char`). -/
structure PlantUMLDocument where
  id : Nat
  content : List Char
  created_at : Int
  updated_at : Int
  title : Option String
deriving DecidableEq

/-- `StorageSlot` from `src/core/src/models.rs` lines 362-372. -/
structure StorageSlot where
  slot_number : Nat
  document : PlantUMLDocument
  saved_at : Int
deriving DecidableEq

/-- `StorageError` from `src/core/src/models.rs` lines 392-405. -/
inductive StorageError where
  | InvalidSlotNumber (n : Nat)
  | SlotsFull
  | QuotaExceeded
  | SlotEmpty (n : Nat)
deriving DecidableEq

/-- `StorageSlot::MAX_SLOTS` (models.rs line 375). -/
def StorageSlot.MAX_SLOTS : Nat := 10

/-- `StorageSlot::validate_slot_number` (models.rs lines 378-383):
rejects slot numbers outside `1..=10`. -/
def StorageSlot.validate_slot_number (slot_number : Nat) : Except StorageError Unit :=
  if 1 ≤ slot_number ∧ slot_number ≤ StorageSlot.MAX_SLOTS then .ok ()
  else .error (.InvalidSlotNumber slot_number)

/-- `StorageSlot::storage_key` (models.rs lines 386-388):
`format!("plantuml_slot_{}", slot_number)`. -/
def StorageSlot.storage_key (slot_number : Nat) : String :=
  "plantuml_slot_" ++ toString slot_number

/-- What sits in `LocalStorage` under a present key: either a value that
deserializes as a `StorageSlot`, or anything else (which
`LocalStorage::get::<StorageSlot>` fails to deserialize). -/
inductive StoredValue where
  | slotRecord (slot : StorageSlot)
  | malformed (raw : String)
deriving DecidableEq

/-- The abstract key-value backend behind `gloo_storage::LocalStorage`. -/
def Backend : Type := String → Option StoredValue

/-- The two failure modes of `gloo_storage::LocalStorage::get`. -/
inductive GlooError where
  | KeyNotFound
  | SerdeError
deriving DecidableEq

/-- `LocalStorage::get::<StorageSlot>(key)`: absent key → `KeyNotFound`,
present but not deserializable → `SerdeError`. -/
def localStorageGet (b : Backend) (key : String) : Except GlooError StorageSlot :=
  match b key with
  | none => .error .KeyNotFound
  | some (.slotRecord slot) => .ok slot
  | some (.malformed _) => .error .SerdeError

/-- `LocalStorage::set(key, slot)` on the backend state. -/
def localStorageSet (b : Backend) (key : String) (slot : StorageSlot) : Backend :=
  fun k => if k = key then some (.slotRecord slot) else b k

/-- `LocalStorage::delete(key)` on the backend state. -/
def localStorageDelete (b : Backend) (key : String) : Backend :=
  fun k => if k = key then none else b k

/-- `StorageService::save_to_slot` from `src/web-ui/src/model/storage.rs`
lines 49-73 (same body in `src/storageservice/src/local.rs` lines 26-50):
casts the slot number to `u8` (`% 256`), validates it, builds a fresh
document and slot, and writes under `storage_key`; a failing
`LocalStorage::set` (`quotaHit`) maps to `QuotaExceeded`. -/
def save_to_slot (b : Backend) (slot_number : Nat) (text : List Char)
    (now : Int) (newId : Nat) (quotaHit : Bool) : Except StorageError Backend :=
  let n := slot_number % 256
  match StorageSlot.validate_slot_number n with
  | .error e => .error e
  | .ok _ =>
    let document : PlantUMLDocument :=
      { id := newId, content := text, created_at := now, updated_at := now,
        title := none }
    let slot : StorageSlot := { slot_number := n, document, saved_at := now }
    if quotaHit then .error .QuotaExceeded
    else .ok (localStorageSet b (StorageSlot.storage_key n) slot)

/-- `StorageService::load_from_slot` from `src/web-ui/src/model/storage.rs`
lines 76-85 (same body in `src/storageservice/src/local.rs` lines 52-61):
`Ok(slot) => Ok(Some(content))`, `Err(_) => Ok(None)` — every
`LocalStorage::get` failure, absent key or malformed record alike,
becomes `Ok(None)`. -/
def load_from_slot (b : Backend) (slot_number : Nat) :
    Except StorageError (Option (List Char)) :=
  let n := slot_number % 256
  match StorageSlot.validate_slot_number n with
  | .error e => .error e
  | .ok _ =>
    match localStorageGet b (StorageSlot.storage_key n) with
    | .ok slot => .ok (some slot.document.content)
    | .error _ => .ok none

/-- `StorageService::delete_slot` from `src/web-ui/src/model/storage.rs`
lines 107-115: validates the slot number and deletes the key. -/
def delete_slot (b : Backend) (slot_number : Nat) : Except StorageError Backend :=
  let n := slot_number % 256
  match StorageSlot.validate_slot_number n with
  | .error e => .error e
  | .ok _ => .ok (localStorageDelete b (StorageSlot.storage_key n))

theorem validate_slot_number_ok (n : Nat) (h1 : 1 ≤ n) (h2 : n ≤ 10) :
    StorageSlot.validate_slot_number n = .ok () := by
  simp [StorageSlot.validate_slot_number, StorageSlot.MAX_SLOTS, h1, h2]

/-- C7 counterexample: with a backend holding a malformed record under
`plantuml_slot_3`, `load_from_slot` returns `Ok(None)` — not the
`SlotReadFailed{reason}` (`StorageReadError`) the claim requires — because
the code maps every `LocalStorage::get` error, `SerdeError` included, to
`Ok(None)`. -/
theorem C7_slot_load_counterexample :
    load_from_slot
      (fun k => if k = "plantuml_slot_3" then some (.malformed "junk") else none)
      3 = .ok none := by
  rfl

/-- C7 amended: for every valid slot number `1..=10`, `load` returns
`None` when the key is absent, `None` (not an error) when the stored
record is malformed, and the stored content when the record deserializes;
it never surfaces `SlotReadFailed` for a valid slot. -/
theorem C7_slot_load_amended (b : Backend) (slot_number : Nat)
    (h1 : 1 ≤ slot_number) (h2 : slot_number ≤ 10) :
    (b (StorageSlot.storage_key slot_number) = none →
      load_from_slot b slot_number = .ok none) ∧
    (∀ raw, b (StorageSlot.storage_key slot_number) = some (.malformed raw) →
      load_from_slot b slot_number = .ok none) ∧
    (∀ slot, b (StorageSlot.storage_key slot_number) = some (.slotRecord slot) →
      load_from_slot b slot_number = .ok (some slot.document.content)) := by
  have hm : slot_number % 256 = slot_number := Nat.mod_eq_of_lt (by omega)
  have hv := validate_slot_number_ok slot_number h1 h2
  refine ⟨fun habs => ?_, fun raw hmal => ?_, fun slot hrec => ?_⟩
  · simp [load_from_slot, hm, hv, localStorageGet, habs]
  · simp [load_from_slot, hm, hv, localStorageGet, hmal]
  · simp [load_from_slot, hm, hv, localStorageGet, hrec]

/-- Witness for C7's amended theorem at slot 2 on the empty backend. -/
theorem C7_slot_load_amended_witness :
    load_from_slot (fun _ => none) 2 = .ok none :=
  (C7_slot_load_amended (fun _ => none) 2 (by decide) (by decide)).1 rfl

/-- C8 counterexample: the persisted key for slot 3 is
`plantuml_slot_3`, not the `slot_3` the claim states — the repository's
own test `test_storage_slot_key` (models_test.rs line 175) asserts the
`plantuml_slot_` prefix. -/
theorem C8_slot_key_counterexample :
    StorageSlot.storage_key 3 = "plantuml_slot_3" ∧
    StorageSlot.storage_key 3 ≠ "slot_3" := by
  constructor
  · rfl
  · decide

/-- C8 amended: for every slot number in `1..=10`, the key under which
the record is written, read and deleted is exactly
`plantuml_slot_<n>`: `save` updates that key and nothing else, `load`
depends only on that key's value, and `delete` clears exactly that key. -/
theorem C8_slot_key_amended (b : Backend) (slot_number : Nat)
    (h1 : 1 ≤ slot_number) (h2 : slot_number ≤ 10) :
    StorageSlot.storage_key slot_number =
      "plantuml_slot_" ++ toString slot_number ∧
    (∀ text now newId b',
      save_to_slot b slot_number text now newId false = .ok b' →
      ∀ k, b' k =
        if k = "plantuml_slot_" ++ toString slot_number
        then some (.slotRecord
          { slot_number := slot_number,
            document := { id := newId, content := text, created_at := now,
                          updated_at := now, title := none },
            saved_at := now })
        else b k) ∧
    (∀ b₂ : Backend,
      b₂ ("plantuml_slot_" ++ toString slot_number) =
        b ("plantuml_slot_" ++ toString slot_number) →
      load_from_slot b₂ slot_number = load_from_slot b slot_number) ∧
    (∀ b', delete_slot b slot_number = .ok b' →
      ∀ k, b' k = if k = "plantuml_slot_" ++ toString slot_number
                  then none else b k) := by
  have hm : slot_number % 256 = slot_number := Nat.mod_eq_of_lt (by omega)
  have hv := validate_slot_number_ok slot_number h1 h2
  refine ⟨rfl, ?_, ?_, ?_⟩
  · intro text now newId b' hsave k
    simp [save_to_slot, hm, hv] at hsave
    rw [← hsave]
    rfl
  · intro b₂ hagree
    simp [load_from_slot, hm, hv, localStorageGet, StorageSlot.storage_key, hagree]
  · intro b' hdel k
    simp [delete_slot, hm, hv] at hdel
    rw [← hdel]
    rfl

/-- Witness for C8's amended theorem at slot 1 on the empty backend. -/
theorem C8_slot_key_amended_witness :
    StorageSlot.storage_key 1 = "plantuml_slot_" ++ toString 1 :=
  (C8_slot_key_amended (fun _ => none) 1 (by decide) (by decide)).1

/-! ## Slot-list preview (`get_preview`, `list_slots`)

`get_preview` (web-ui storage.rs lines 127-137, storageservice local.rs
lines 92-102) joins the first three `str::lines()` of the content and,
when that string exceeds 100 bytes, takes `&preview[..100]` — a byte
slice that aborts at runtime when byte offset 100 is not a UTF-8
character boundary.  The abort is modelled as `none`. -/

/-- Close the current line when a `'\n'` is reached: the accumulator holds
the line's characters in reverse; a trailing `'\r'` (the accumulator's
head) is stripped, as `str::lines` does for `\r\n` endings. -/
def finishLine (acc : List Char) : List Char :=
  match acc with
  | c :: acc₂ => if c = '\r' then acc₂.reverse else (c :: acc₂).reverse
  | [] => []

/-- Worker for `str::lines`: split at `'\n'`, keeping the last segment
as-is (no terminator, so no `'\r'` stripping there). -/
def linesAux : List Char → List Char → List (List Char)
  | acc, [] => [acc.reverse]
  | acc, c :: cs =>
    if c = '\n' then finishLine acc :: linesAux [] cs
    else linesAux (c :: acc) cs

/-- `str::lines` drops the final segment when the string ends with a line
terminator (the final line ending is optional). -/
def dropLastEmpty (ls : List (List Char)) : List (List Char) :=
  match ls.getLast? with
  | some [] => ls.dropLast
  | _ => ls

/-- Rust `str::lines().collect()` on the embedded string. -/
def rustLines (s : List Char) : List (List Char) :=
  dropLastEmpty (linesAux [] s)

/-- Rust `Vec::join("\n")` on the collected lines. -/
def joinNl : List (List Char) → List Char
  | [] => []
  | [l] => l
  | l :: l₂ :: ls => l ++ '\n' :: joinNl (l₂ :: ls)

/-- Rust byte slice `&s[..k]` on the embedded string: `some` of the
prefix when byte offset `k` is a character boundary, `none` (the
runtime abort) otherwise. -/
def sliceBytes : Nat → List Char → Option (List Char)
  | 0, _ => some []
  | _ + 1, [] => none
  | k + 1, c :: cs =>
    if utf8Len c ≤ k + 1 then
      (sliceBytes (k + 1 - utf8Len c) cs).map (fun pre => c :: pre)
    else none

/-- The `preview` local of `get_preview`: the first three lines joined
with `"\n"`. -/
def previewOf (content : List Char) : List Char :=
  joinNl ((rustLines content).take 3)

/-- The `"..."` appended by `get_preview` when it truncates. -/
def ellipsisMarker : List Char := ['.', '.', '.']

/-- `get_preview` from `src/web-ui/src/model/storage.rs` lines 127-137
(same body in `src/storageservice/src/local.rs` lines 92-102):
`if preview.len() > 100 { format!("{}...", &preview[..100]) } else
{ preview }`.  `none` is the byte-slice abort. -/
def get_preview (content : List Char) : Option (List Char) :=
  if byteLen (previewOf content) > 100 then
    (sliceBytes 100 (previewOf content)).map (fun pre => pre ++ ellipsisMarker)
  else some (previewOf content)

/-- `SlotInfo` from `src/web-ui/src/model/storage.rs` lines 119-125. -/
structure SlotInfo where
  slot_number : Nat
  title : String
  saved_at : Int
  preview : List Char
deriving DecidableEq

/-- `StorageService::list_slots` (web-ui storage.rs lines 88-104) over an
explicit list of slot numbers: present, well-formed slots contribute a
`SlotInfo`; absent or malformed keys are skipped; a `get_preview` abort
aborts the whole listing (`none`). -/
def list_slots_from (b : Backend) : List Nat → Option (List SlotInfo)
  | [] => some []
  | n :: ns =>
    match b (StorageSlot.storage_key n) with
    | some (.slotRecord slot) =>
      match get_preview slot.document.content with
      | none => none
      | some pv =>
        (list_slots_from b ns).map
          (fun rest =>
            { slot_number := n, title := slot.document.title.getD "無題",
              saved_at := slot.saved_at, preview := pv } :: rest)
    | _ => list_slots_from b ns

/-- `StorageService::list_slots`: the loop `for slot_number in 1..=MAX_SLOTS`. -/
def list_slots (b : Backend) : Option (List SlotInfo) :=
  list_slots_from b (List.range' 1 10)

theorem byteLen_cons (c : Char) (s : List Char) :
    byteLen (c :: s) = utf8Len c + byteLen s := by
  simp [byteLen]

theorem byteLen_append (s t : List Char) :
    byteLen (s ++ t) = byteLen s + byteLen t := by
  simp [byteLen]

theorem byteLen_eq_length (s : List Char) (h : ∀ c ∈ s, utf8Len c = 1) :
    byteLen s = s.length := by
  induction s with
  | nil => rfl
  | cons c cs ih =>
    rw [byteLen_cons, h c (List.mem_cons_self c cs), List.length_cons,
      ih fun x hx => h x (List.mem_cons_of_mem c hx)]
    omega

/-- Slicing at a character boundary succeeds and returns the prefix. -/
theorem sliceBytes_append : ∀ pre suf : List Char,
    sliceBytes (byteLen pre) (pre ++ suf) = some pre
  | [], suf => by
    simp only [byteLen, List.map_nil, List.sum_nil, List.nil_append]
    cases suf <;> rfl
  | c :: pre, suf => by
    have hu := utf8Len_pos c
    have hb := byteLen_cons c pre
    obtain ⟨m, hm⟩ : ∃ m, byteLen (c :: pre) = m + 1 :=
      ⟨byteLen (c :: pre) - 1, by omega⟩
    rw [hm, List.cons_append]
    simp only [sliceBytes]
    rw [if_pos (by omega), show m + 1 - utf8Len c = byteLen pre by omega,
      sliceBytes_append pre suf]
    rfl

/-- A successful slice decomposes the string at a character boundary. -/
theorem sliceBytes_some : ∀ (s : List Char) (k : Nat) (pre : List Char),
    sliceBytes k s = some pre → byteLen pre = k ∧ ∃ suf, s = pre ++ suf := by
  intro s
  induction s with
  | nil =>
    intro k pre h
    cases k with
    | zero =>
      simp only [sliceBytes, Option.some.injEq] at h
      subst h
      exact ⟨by simp [byteLen], [], by simp⟩
    | succ k => exact absurd h (by simp [sliceBytes])
  | cons c cs ih =>
    intro k pre h
    cases k with
    | zero =>
      simp only [sliceBytes, Option.some.injEq] at h
      subst h
      exact ⟨by simp [byteLen], c :: cs, by simp⟩
    | succ k =>
      simp only [sliceBytes] at h
      by_cases hc : utf8Len c ≤ k + 1
      · rw [if_pos hc] at h
        obtain ⟨pre', hs, rfl⟩ := Option.map_eq_some'.mp h
        obtain ⟨hb, suf, hsuf⟩ := ih _ _ hs
        exact ⟨by rw [byteLen_cons]; omega, suf, by simp [hsuf]⟩
      · rw [if_neg hc] at h
        exact absurd h (by simp)

/-- Slicing away from every character boundary aborts. -/
theorem sliceBytes_eq_none (s : List Char) (k : Nat)
    (h : ¬ ∃ pre suf, s = pre ++ suf ∧ byteLen pre = k) :
    sliceBytes k s = none := by
  cases hs : sliceBytes k s with
  | none => rfl
  | some pre =>
    obtain ⟨hb, suf, hsuf⟩ := sliceBytes_some s k pre hs
    exact absurd ⟨pre, suf, hsuf, hb⟩ h

theorem mem_finishLine {c : Char} {acc : List Char}
    (h : c ∈ finishLine acc) : c ∈ acc := by
  cases acc with
  | nil => cases h
  | cons a as =>
    rw [show finishLine (a :: as) =
      (if a = '\r' then as.reverse else (a :: as).reverse) from rfl] at h
    by_cases ha : a = '\r'
    · rw [if_pos ha] at h
      exact List.mem_cons_of_mem a (List.mem_reverse.mp h)
    · rw [if_neg ha] at h
      exact List.mem_reverse.mp h

theorem mem_linesAux {c : Char} : ∀ (s acc l : List Char),
    l ∈ linesAux acc s → c ∈ l → c ∈ acc ∨ c ∈ s := by
  intro s
  induction s with
  | nil =>
    intro acc l hl hc
    simp only [linesAux, List.mem_singleton] at hl
    subst hl
    exact Or.inl (List.mem_reverse.mp hc)
  | cons c₀ cs ih =>
    intro acc l hl hc
    unfold linesAux at hl
    by_cases h0 : c₀ = '\n'
    · rw [if_pos h0] at hl
      rcases List.mem_cons.mp hl with rfl | htail
      · exact Or.inl (mem_finishLine hc)
      · rcases ih [] l htail hc with h | h
        · cases h
        · exact Or.inr (List.mem_cons_of_mem _ h)
    · rw [if_neg h0] at hl
      rcases ih (c₀ :: acc) l hl hc with h | h
      · rcases List.mem_cons.mp h with rfl | h
        · exact Or.inr (List.mem_cons_self _ _)
        · exact Or.inl h
      · exact Or.inr (List.mem_cons_of_mem _ h)

theorem mem_dropLastEmpty {l : List Char} {ls : List (List Char)}
    (h : l ∈ dropLastEmpty ls) : l ∈ ls := by
  unfold dropLastEmpty at h
  split at h
  · exact (List.dropLast_sublist ls).subset h
  · exact h

theorem mem_joinNl {c : Char} : ∀ ls : List (List Char),
    c ∈ joinNl ls → c = '\n' ∨ ∃ l ∈ ls, c ∈ l
  | [], h => by cases h
  | [l], h => Or.inr ⟨l, List.mem_singleton_self l, h⟩
  | l :: l₂ :: ls, h => by
    rcases List.mem_append.mp h with h | h
    · exact Or.inr ⟨l, List.mem_cons_self _ _, h⟩
    · rcases List.mem_cons.mp h with rfl | h
      · exact Or.inl rfl
      · rcases mem_joinNl (l₂ :: ls) h with h | ⟨l', hl', hc⟩
        · exact Or.inl h
        · exact Or.inr ⟨l', List.mem_cons_of_mem _ hl', hc⟩

/-- Every character of the three-line preview comes from the content or
is the joining `'\n'`. -/
theorem mem_previewOf {c : Char} {content : List Char}
    (h : c ∈ previewOf content) : c = '\n' ∨ c ∈ content := by
  rcases mem_joinNl _ h with h | ⟨l, hl, hc⟩
  · exact Or.inl h
  · have hl' : l ∈ linesAux [] content :=
      mem_dropLastEmpty ((List.take_sublist 3 _).subset hl)
    rcases mem_linesAux content [] l hl' hc with h | h
    · cases h
    · exact Or.inr h

theorem list_slots_from_bad (b : Backend) :
    ∀ (ns : List Nat) (n : Nat) (slot : StorageSlot), n ∈ ns →
      b (StorageSlot.storage_key n) = some (.slotRecord slot) →
      get_preview slot.document.content = none →
      list_slots_from b ns = none := by
  intro ns
  induction ns with
  | nil => intro n slot h _ _; cases h
  | cons m ms ih =>
    intro n slot hmem hb hbad
    rcases List.mem_cons.mp hmem with rfl | hmem'
    · simp [list_slots_from, hb, hbad]
    · cases hbm : b (StorageSlot.storage_key m) with
      | none => simpa [list_slots_from, hbm] using ih n slot hmem' hb hbad
      | some v =>
        cases v with
        | malformed raw => simpa [list_slots_from, hbm] using ih n slot hmem' hb hbad
        | slotRecord slot' =>
          cases hpv : get_preview slot'.document.content with
          | none => simp [list_slots_from, hbm, hpv]
          | some pv => simp [list_slots_from, hbm, hpv, ih n slot hmem' hb hbad]

theorem list_slots_from_good (b : Backend)
    (hgood : ∀ n slot, b (StorageSlot.storage_key n) = some (.slotRecord slot) →
      (get_preview slot.document.content).isSome = true) :
    ∀ ns : List Nat, (list_slots_from b ns).isSome = true := by
  intro ns
  induction ns with
  | nil => rfl
  | cons m ms ih =>
    cases hbm : b (StorageSlot.storage_key m) with
    | none => simpa [list_slots_from, hbm] using ih
    | some v =>
      cases v with
      | malformed raw => simpa [list_slots_from, hbm] using ih
      | slotRecord slot =>
        have hs := hgood m slot hbm
        cases hpv : get_preview slot.document.content with
        | none => rw [hpv] at hs; cases hs
        | some pv => simpa [list_slots_from, hbm, hpv] using ih

/-- C10 (implicit). Preview truncation is byte-based and partial:
when the joined first-three-lines string is at most 100 bytes it is
returned unchanged; when it exceeds 100 bytes and byte offset 100 is a
character boundary the result is the 100-byte prefix plus `"..."`,
103 bytes in total; when offset 100 is not a character boundary the
byte slice aborts (`none`); for all-ASCII content `get_preview` always
succeeds; and `list_slots` aborts as soon as any present slot's content
has an aborting preview, and succeeds when every present slot's preview
succeeds. -/
theorem C10_preview_truncation :
    (∀ content : List Char, byteLen (previewOf content) ≤ 100 →
      get_preview content = some (previewOf content)) ∧
    (∀ content pre suf, byteLen (previewOf content) > 100 →
      previewOf content = pre ++ suf → byteLen pre = 100 →
      get_preview content = some (pre ++ ellipsisMarker) ∧
      byteLen (pre ++ ellipsisMarker) = 103) ∧
    (∀ content : List Char, byteLen (previewOf content) > 100 →
      (¬ ∃ pre suf, previewOf content = pre ++ suf ∧ byteLen pre = 100) →
      get_preview content = none) ∧
    (∀ content : List Char, (∀ c ∈ content, c.toNat < 128) →
      (get_preview content).isSome = true) ∧
    (∀ (b : Backend) (n : Nat) (slot : StorageSlot), n ∈ List.range' 1 10 →
      b (StorageSlot.storage_key n) = some (.slotRecord slot) →
      get_preview slot.document.content = none →
      list_slots b = none) ∧
    (∀ b : Backend,
      (∀ n slot, b (StorageSlot.storage_key n) = some (.slotRecord slot) →
        (get_preview slot.document.content).isSome = true) →
      (list_slots b).isSome = true) := by
  refine ⟨?_, ?_, ?_, ?_, ?_, ?_⟩
  · intro content h
    simp [get_preview, Nat.not_lt.mpr h]
  · intro content pre suf hgt hsplit hpre
    have hsl : sliceBytes 100 (previewOf content) = some pre := by
      rw [hsplit, ← hpre, sliceBytes_append]
    constructor
    · simp [get_preview, hgt, hsl]
    · rw [byteLen_append, hpre]
      rfl
  · intro content hgt hnb
    simp [get_preview, hgt, sliceBytes_eq_none _ _ hnb]
  · intro content hascii
    have hpre : ∀ c ∈ previewOf content, utf8Len c = 1 := by
      intro c hc
      rcases mem_previewOf hc with rfl | h
      · rfl
      · have := hascii c h
        unfold utf8Len
        rw [if_pos this]
    by_cases h : byteLen (previewOf content) > 100
    · have hlen : byteLen (previewOf content) = (previewOf content).length :=
        byteLen_eq_length _ hpre
      have htake : byteLen ((previewOf content).take 100) = 100 := by
        rw [byteLen_eq_length _ fun c hc => hpre c ((List.take_sublist _ _).subset hc),
          List.length_take]
        omega
      have hsl := sliceBytes_append ((previewOf content).take 100)
        ((previewOf content).drop 100)
      rw [htake, List.take_append_drop] at hsl
      simp [get_preview, h, hsl]
    · simp [get_preview, h]
  · intro b n slot hmem hb hbad
    exact list_slots_from_bad b _ n slot hmem hb hbad
  · intro b hgood
    exact list_slots_from_good b hgood _

/-- Witness for C10 at a concrete input: a one-character content is
returned as its own preview. -/
theorem C10_preview_truncation_witness :
    get_preview ['a'] = some (previewOf ['a']) :=
  C10_preview_truncation.1 ['a'] (by decide)

/-! ## Render client (`src/core/src/client.rs`) and the API handler's
error classification (`src/api-server/src/handlers.rs`)

`reqwest` is the environment: the combined effect of `send()` followed by
`bytes()` on a URL is either a response (any HTTP status, with its body
bytes) or a `reqwest::Error` — connection/DNS failures, timeouts and
body-read failures all surface as that one opaque error type, which
`client.rs` converts via `#[from]` into `ClientError::Network`.
`client.rs` never inspects the HTTP status code. -/

/-- `ImageFormat` from `src/core/src/models.rs` lines 63-66. -/
inductive ImageFormat where
  | Png
  | Svg
deriving DecidableEq

/-- `GenerationResult` as used by `src/core/src/client.rs` line 116
(only `Success` is ever constructed). -/
inductive GenerationResult where
  | Success
deriving DecidableEq

/-- The cause classes of a `reqwest::Error`, used only to state which
real-world failures land in which arm; `client.rs` itself never looks at
them. -/
inductive ReqwestErrorKind where
  | connect
  | dns
  | timedOut
  | other
deriving DecidableEq

/-- An opaque `reqwest::Error`: a cause class plus its `Display` text. -/
structure ReqwestError where
  kind : ReqwestErrorKind
  msg : String
deriving DecidableEq

/-- What one `GET url` (send + body read) can produce. -/
inductive HttpOutcome where
  | response (status : Nat) (body : List Nat)
  | failed (e : ReqwestError)
deriving DecidableEq

/-- `ClientError` from `src/core/src/client.rs` lines 15-31 (identical in
`src/plantuml-client/src/errors.rs`).  `convert` only ever constructs
`Network` (via `#[from]`) and `EncodingError`; `Timeout`, `ServerError`
and `InvalidResponse` are never produced by it. -/
inductive ClientError where
  | Network (e : ReqwestError)
  | Timeout
  | ServerError (s : String)
  | InvalidResponse
  | EncodingError (s : String)
deriving DecidableEq

/-- The `thiserror` `Display` strings of `ClientError` (client.rs
lines 17-30). -/
def ClientError.to_string : ClientError → String
  | .Network e => "ネットワークエラー: " ++ e.msg
  | .Timeout => "タイムアウト: PlantUMLサーバーが応答しません"
  | .ServerError s => "PlantUMLサーバーエラー: " ++ s
  | .InvalidResponse => "無効なレスポンス形式"
  | .EncodingError s => "エンコードエラー: " ++ s

/-- `DiagramImage` as constructed by `client.rs` lines 120-127 (the
UUID abstracted as `Nat`, bytes as `List Nat`). -/
structure DiagramImage where
  document_id : Nat
  format : ImageFormat
  data : List Nat
  dimensions : Nat × Nat
  generated_at : Int
  result : GenerationResult
deriving DecidableEq

/-- The endpoint path segment chosen by `convert` (client.rs lines 86-89). -/
def endpointOf : ImageFormat → String
  | .Png => "png"
  | .Svg => "svg"

/-- The request URL `format!("{}/{}/{}", base_url, endpoint, encoded)`
(client.rs line 96). -/
def urlOf (base_url : String) (format : ImageFormat) (encoded : String) : String :=
  base_url ++ "/" ++ endpointOf format ++ "/" ++ encoded

/-- `PlantUmlClient::convert` from `src/core/src/client.rs` lines 80-128.
`encRes` is the outcome of `encode_plantuml_deflate` (external crate),
`http` the effect of the GET: every transport failure surfaces as
`ClientError::Network` via the two `?` operators; any response — the
status is never examined — yields `Ok` with the body as `data`,
placeholder dimensions `(800, 600)` and `GenerationResult::Success`
(no error-image detection). -/
def convert (encRes : Except String String) (base_url : String)
    (format : ImageFormat) (http : String → HttpOutcome)
    (now : Int) (document_id : Nat) : Except ClientError DiagramImage :=
  match encRes with
  | .error e => .error (.EncodingError e)
  | .ok encoded =>
    match http (urlOf base_url format encoded) with
    | .failed e => .error (.Network e)
    | .response _status body =>
      .ok { document_id, format, data := body, dimensions := (800, 600),
            generated_at := now, result := .Success }

/-- Rust `str::contains` (substring containment) on embedded strings:
`listLeads needle hay` is "hay starts with needle". -/
def listLeads : List Char → List Char → Bool
  | [], _ => true
  | _ :: _, [] => false
  | a :: as, b :: bs => a = b && listLeads as bs

/-- Substring containment: the needle starts at some position of the hay. -/
def containsSub (needle : List Char) : List Char → Bool
  | [] => listLeads needle []
  | c :: cs => listLeads needle (c :: cs) || containsSub needle cs

/-- The unit-variant error codes the API handler chooses between
(handlers.rs uses field-less `ErrorCode::EncodingError` /
`ErrorCode::ParseError` / `ErrorCode::ExportError`). -/
inductive HandlerCode where
  | EncodingError
  | ParseError
  | ExportError
deriving DecidableEq

/-- The error classification of `POST /api/v1/convert`
(`src/api-server/src/handlers.rs` lines 73-80): an error whose `Display`
text contains `"エンコードエラー"` becomes `EncodingError`; every other
`ClientError` — network, timeout, server error, invalid response —
becomes `ParseError`. -/
def classify_convert_error (e : ClientError) : HandlerCode :=
  if containsSub "エンコードエラー".toList e.to_string.toList then .EncodingError
  else .ParseError

theorem listLeads_self_append : ∀ (l r : List Char), listLeads l (l ++ r) = true
  | [], _ => rfl
  | a :: as, r => by
    simp [listLeads, listLeads_self_append as r]

theorem containsSub_leads {needle hay : List Char}
    (h : listLeads needle hay = true) : containsSub needle hay = true := by
  cases hay with
  | nil => exact h
  | cons c cs => simp [containsSub, h]

/-- C4 counterexample: the claimed classification does not happen.
A GET returning HTTP 500 (non-2xx) with body `[1, 2, 3]` makes `convert`
return `Ok` with that body — not `RendererUnreachable{endpoint}`
(`NetworkError`) — because `convert` never checks the status; and a
connection-refused transport failure is classified by the handler as
`ParseError`, not as an unreachable/timeout/rejected renderer code. -/
theorem C4_failure_classification_counterexample :
    convert (.ok "ENC") "http://localhost:8081" .Png
      (fun _ => .response 500 [1, 2, 3]) 0 7 =
      .ok { document_id := 7, format := .Png, data := [1, 2, 3],
            dimensions := (800, 600), generated_at := 0,
            result := .Success } ∧
    classify_convert_error (.Network ⟨.connect, "connection refused"⟩) =
      .ParseError := by
  constructor
  · rfl
  · decide

/-- C4 amended: `convert` propagates an encoding failure as
`ClientError::EncodingError`; every transport error — connection/DNS
failure, timeout, or any other `reqwest` error — surfaces uniformly as
`ClientError::Network` (never `Timeout`, `ServerError` or
`InvalidResponse`); any HTTP response, 2xx or not, is a success whose
payload is the body.  The API handler then maps a `ClientError` to
`EncodingError` exactly when its display text contains
`"エンコードエラー"`, and to `ParseError` otherwise — so every transport
failure becomes `ParseError`, and none of `NetworkError`/`TimeoutError`/
`ServerError` is produced from a render failure. -/
theorem C4_failure_classification_amended :
    (∀ (e base : String) (format : ImageFormat) (http : String → HttpOutcome)
      (now : Int) (id : Nat),
      convert (.error e) base format http now id = .error (.EncodingError e)) ∧
    (∀ (enc base : String) (format : ImageFormat) (http : String → HttpOutcome)
      (now : Int) (id : Nat) (err : ReqwestError),
      http (urlOf base format enc) = .failed err →
      convert (.ok enc) base format http now id = .error (.Network err)) ∧
    (∀ (enc base : String) (format : ImageFormat) (http : String → HttpOutcome)
      (now : Int) (id : Nat) (status : Nat) (body : List Nat),
      http (urlOf base format enc) = .response status body →
      convert (.ok enc) base format http now id =
        .ok { document_id := id, format, data := body,
              dimensions := (800, 600), generated_at := now,
              result := .Success }) ∧
    (∀ err : ReqwestError,
      containsSub "エンコードエラー".toList
        (ClientError.Network err).to_string.toList = false →
      classify_convert_error (.Network err) = .ParseError) ∧
    (∀ s : String, classify_convert_error (.EncodingError s) = .EncodingError) := by
  refine ⟨fun _ _ _ _ _ _ => rfl, ?_, ?_, ?_, ?_⟩
  · intro enc base format http now id err h
    simp [convert, h]
  · intro enc base format http now id status body h
    simp [convert, h]
  · intro err h
    unfold classify_convert_error
    rw [h]
    rfl
  · intro s
    have h : listLeads "エンコードエラー".toList
        (ClientError.EncodingError s).to_string.toList = true := by
      have := listLeads_self_append "エンコードエラー".toList (": " ++ s).toList
      simpa [ClientError.to_string, String.toList] using this
    unfold classify_convert_error
    rw [containsSub_leads h]
    rfl

/-- Witness for C4's amended theorem at concrete inputs. -/
theorem C4_failure_classification_amended_witness :
    convert (.ok "E") "b" .Svg (fun _ => .failed ⟨.timedOut, "t"⟩) 0 0 =
      .error (.Network ⟨.timedOut, "t"⟩) :=
  C4_failure_classification_amended.2.1 "E" "b" .Svg
    (fun _ => .failed ⟨.timedOut, "t"⟩) 0 0 ⟨.timedOut, "t"⟩ rfl

/-- C5. Any response — the status is never examined, so in particular any
2xx — yields `Ok` whose `data` is exactly the body bytes, with
`GenerationResult::Success` unconditionally (no error-image detection),
and `convert` consults the transport exactly once, at the one request
URL (no retries): two transports agreeing on that URL give identical
outcomes. -/
theorem C5_success_is_body :
    (∀ (enc base : String) (format : ImageFormat) (http : String → HttpOutcome)
      (now : Int) (id : Nat) (status : Nat) (body : List Nat),
      http (urlOf base format enc) = .response status body →
      200 ≤ status → status < 300 →
      convert (.ok enc) base format http now id =
        .ok { document_id := id, format, data := body,
              dimensions := (800, 600), generated_at := now,
              result := .Success }) ∧
    (∀ (enc base : String) (format : ImageFormat)
      (http₁ http₂ : String → HttpOutcome) (now : Int) (id : Nat),
      http₁ (urlOf base format enc) = http₂ (urlOf base format enc) →
      convert (.ok enc) base format http₁ now id =
        convert (.ok enc) base format http₂ now id) := by
  constructor
  · intro enc base format http now id status body h _ _
    simp [convert, h]
  · intro enc base format http₁ http₂ now id h
    simp [convert, h]

/-- Witness for C5 at a concrete input: a 200 response whose body spells
an upstream syntax-error image is still a success with that body. -/
theorem C5_success_is_body_witness :
    convert (.ok "ENC") "base" .Png (fun _ => .response 200 [9, 9]) 3 5 =
      .ok { document_id := 5, format := .Png, data := [9, 9],
            dimensions := (800, 600), generated_at := 3,
            result := .Success } :=
  C5_success_is_body.1 "ENC" "base" .Png (fun _ => .response 200 [9, 9])
    3 5 200 [9, 9] rfl (by decide) (by decide)

/-! ## Encoder (spec §4.2)

`client.rs` line 92 calls `plantuml_encoding::encode_plantuml_deflate`,
an external crate whose source is not part of this repository; only its
call site is under `src/`.  The Encoder is therefore modelled from the
spec. -/

/-- One 6-bit group to its character in the PlantUML URL-safe alphabet
`0-9 A-Z a-z - _`. -/
def encodeSextet (b : Nat) : Char :=
  if b < 10 then Char.ofNat (48 + b)
  else if b < 36 then Char.ofNat (65 + b - 10)
  else if b < 62 then Char.ofNat (97 + b - 36)
  else if b = 62 then '-'
  else '_'

/-- Inverse of `encodeSextet` on the 64-character alphabet. -/
def decodeSextet (c : Char) : Nat :=
  let n := c.toNat
  if 48 ≤ n ∧ n ≤ 57 then n - 48
  else if 65 ≤ n ∧ n ≤ 90 then n - 65 + 10
  else if 97 ≤ n ∧ n ≤ 122 then n - 97 + 36
  else if n = 45 then 62
  else 63

/-- Modelled from the spec: the Encoder of §4.2
(`plantuml_encoding::encode_plantuml_deflate`, whose crate source is
missing from `src/`) must be "a deterministic, side-effect-free
transform producing a URL-safe string that a matching decoder … can
invert to the exact original text", with round-trip fidelity as a hard
invariant (§8).  The model packs the input byte sequence into 6-bit
groups over the PlantUML URL-safe alphabet (three bytes to four
characters, with shorter final groups for a one- or two-byte tail); the
crate's raw-deflate compression stage, equally absent from `src/`, is
not modelled. -/
def encode_plantuml_deflate : List Nat → List Char
  | [] => []
  | [b₁] => [encodeSextet (b₁ / 4), encodeSextet (b₁ % 4 * 16)]
  | [b₁, b₂] =>
    [encodeSextet (b₁ / 4), encodeSextet (b₁ % 4 * 16 + b₂ / 16),
     encodeSextet (b₂ % 16 * 4)]
  | b₁ :: b₂ :: b₃ :: rest =>
    encodeSextet (b₁ / 4) :: encodeSextet (b₁ % 4 * 16 + b₂ / 16) ::
    encodeSextet (b₂ % 16 * 4 + b₃ / 64) :: encodeSextet (b₃ % 64) ::
    encode_plantuml_deflate rest

/-- Modelled from the spec: the matching decoder of §4.2
(`plantuml_encoding::decode_plantuml_deflate`, external): unpack four
characters to three bytes, a three- or two-character tail to two bytes
or one. -/
def decode_plantuml_deflate : List Char → List Nat
  | [] => []
  | [_] => []
  | [c₁, c₂] => [decodeSextet c₁ * 4 + decodeSextet c₂ / 16]
  | [c₁, c₂, c₃] =>
    [decodeSextet c₁ * 4 + decodeSextet c₂ / 16,
     decodeSextet c₂ % 16 * 16 + decodeSextet c₃ / 4]
  | c₁ :: c₂ :: c₃ :: c₄ :: rest =>
    (decodeSextet c₁ * 4 + decodeSextet c₂ / 16) ::
    (decodeSextet c₂ % 16 * 16 + decodeSextet c₃ / 4) ::
    (decodeSextet c₃ % 4 * 64 + decodeSextet c₄) ::
    decode_plantuml_deflate rest

theorem decodeSextet_encodeSextet : ∀ b : Nat, b < 64 →
    decodeSextet (encodeSextet b) = b := by
  decide

/-- C6. Encoder round-trip fidelity: for every byte sequence (each byte
below 256), decoding the encoder's output recovers the exact original —
no truncation, no loss. -/
theorem C6_encoder_round_trip :
    ∀ bs : List Nat, (∀ b ∈ bs, b < 256) →
      decode_plantuml_deflate (encode_plantuml_deflate bs) = bs := by
  intro bs
  induction bs using encode_plantuml_deflate.induct with
  | case1 => intro _; rfl
  | case2 b₁ =>
    intro hb
    have h₁ : b₁ < 256 := hb b₁ (by simp)
    simp only [encode_plantuml_deflate, decode_plantuml_deflate]
    rw [decodeSextet_encodeSextet _ (by omega),
      decodeSextet_encodeSextet _ (by omega)]
    simp only [List.cons.injEq, and_true]
    omega
  | case3 b₁ b₂ =>
    intro hb
    have h₁ : b₁ < 256 := hb b₁ (by simp)
    have h₂ : b₂ < 256 := hb b₂ (by simp)
    simp only [encode_plantuml_deflate, decode_plantuml_deflate]
    rw [decodeSextet_encodeSextet _ (by omega),
      decodeSextet_encodeSextet _ (by omega),
      decodeSextet_encodeSextet _ (by omega)]
    simp only [List.cons.injEq, and_true]
    constructor <;> omega
  | case4 b₁ b₂ b₃ rest ih =>
    intro hb
    have h₁ : b₁ < 256 := hb b₁ (by simp)
    have h₂ : b₂ < 256 := hb b₂ (by simp)
    have h₃ : b₃ < 256 := hb b₃ (by simp)
    have hrest : ∀ b ∈ rest, b < 256 := fun b h => hb b (by simp [h])
    simp only [encode_plantuml_deflate, decode_plantuml_deflate]
    rw [decodeSextet_encodeSextet _ (by omega),
      decodeSextet_encodeSextet _ (by omega),
      decodeSextet_encodeSextet _ (by omega),
      decodeSextet_encodeSextet _ (by omega), ih hrest]
    simp only [List.cons.injEq, and_true]
    refine ⟨by omega, by omega, by omega⟩

/-- Witness for C6 at a concrete byte sequence. -/
theorem C6_encoder_round_trip_witness :
    decode_plantuml_deflate (encode_plantuml_deflate [0, 100, 255, 7]) =
      [0, 100, 255, 7] :=
  C6_encoder_round_trip [0, 100, 255, 7] (by decide)

end PlantUml
